import Mathlib

/-!
Verification of the siren.fm playback-continuity core (`app.js`).

The development shallowly embeds the two controllers of the program:

* `ScannerPlayer` — the scanner audio element, feed selection, and the
  OpenMHz call-queue polling workflow (`fetchCalls`, `playNextCall`,
  `startOpenMHz` / `stopOpenMHz`, `onFeedChange`, `togglePlay`, and the
  audio-element event handlers);
* `AmbientPlayer` — the SoundCloud widget shuffle cursor
  (`shuffleIndices`, `next`, `prev`, `onPlaylistLoaded`).

DOM objects are represented by the boolean / string fields they carry
(`panelActive` for the panel's `active` class, `liveBadgeHidden` for the
badge's `hidden` class, and so on).  Asynchronous behaviour is made
explicit: a pending `startOpenMHz` continuation (the code awaits the first
`fetchCalls` before installing its `setInterval`) is counted in
`pendingStarts`, installed intervals are collected in `activeTimers`, and
the stored handle is `pollTimer`.  Network outcomes are oracle inputs
(`Except Unit (List CallRecord)`), and `Math.random` draws are an oracle
function `f : Nat → Nat` with `f i ≤ i` standing for
`Math.floor(Math.random() * (i + 1))`.
-/

/-- Kind of a scanner feed: a direct CDN stream or an OpenMHz call feed. -/
inductive FeedType where
  | stream
  | openmhz
deriving DecidableEq, Repr

/-- One entry of `SCANNER_FEEDS`.  Source objects carry `system` only for
`openmhz` feeds and `url` only for `stream` feeds; an absent string field is
modelled as `""`. -/
structure Feed where
  city : String
  state : String
  desc : String
  type : FeedType
  system : String
  url : String
deriving DecidableEq, Repr

/-- The static feed list of the program (both entries are OpenMHz feeds). -/
def SCANNER_FEEDS : List Feed :=
  [⟨"Dallas", "TX", "Police & Fire", FeedType.openmhz, "ntirnd1", ""⟩,
   ⟨"San Francisco", "CA", "Police", FeedType.openmhz, "sfp25", ""⟩]

/-- One call object from the OpenMHz API.  `len` is a duration in seconds
(possibly fractional), `time` is the call timestamp in epoch milliseconds
(the value of `new Date(c.time).getTime()`); per the API interface every
call carries a well-formed `time`.  An absent `url` / `filename` is `""`. -/
structure CallRecord where
  len : Rat
  time : Int
  url : String
  filename : String
deriving DecidableEq, Repr

/-- State of the `ScannerPlayer` instance together with the bookkeeping the
event-loop model needs (`activeTimers`, `pendingStarts`, `nextTimer`).
`now` is the ambient clock read by `Date.now()`. -/
structure ScannerState where
  isPlaying : Bool
  currentFeed : Option Feed
  callQueue : List CallRecord
  pollTimer : Option Nat
  lastCallTime : Int
  status : String
  liveBadgeHidden : Bool
  panelActive : Bool
  vizActive : Bool
  playBtnPlaying : Bool
  audioSrc : Option String
  audioPaused : Bool
  audioEnded : Bool
  activeTimers : List Nat
  pendingStarts : Nat
  nextTimer : Nat
  now : Int
deriving DecidableEq, Repr

namespace ScannerPlayer

/-- Guard `this.currentFeed && this.currentFeed.type === 'openmhz'`. -/
def isOpenmhzFeed : Option Feed → Bool
  | some f => f.type = FeedType.openmhz
  | none => false

/-- Value of `this.currentFeed.desc`; every call site dereferences it only
with a feed selected. -/
def currentDesc (s : ScannerState) : String :=
  match s.currentFeed with
  | some f => f.desc
  | none => ""

/-- Body of `playNextCall` as a recursion over the queue: dequeue, skip
calls whose `url || filename` is falsy, otherwise set the audio source and
start playback. -/
def playFromQueue (s : ScannerState) : List CallRecord → ScannerState
  | [] => { s with callQueue := [], status := "Listening for calls..." }
  | call :: rest =>
    if call.url ≠ "" then
      { s with callQueue := rest, status := currentDesc s,
               audioSrc := some call.url, audioPaused := false, audioEnded := false }
    else if call.filename ≠ "" then
      { s with callQueue := rest, status := currentDesc s,
               audioSrc := some call.filename, audioPaused := false, audioEnded := false }
    else
      playFromQueue s rest

/-- `ScannerPlayer.playNextCall`. -/
def playNextCall (s : ScannerState) : ScannerState :=
  playFromQueue s s.callQueue

/-- First block of the `fetchCalls` success path: on a non-empty batch,
filter out short calls (`c.len > 1`), append them to the queue, and
advance the watermark to the last call's `time + 1` ms. -/
def fetchOkQueue (s : ScannerState) (calls : List CallRecord) : ScannerState :=
  if calls.length > 0 then
    let newCalls := calls.filter (fun c => 1 < c.len)
    let s' := { s with callQueue := s.callQueue ++ newCalls }
    match calls.getLast? with
    | some newest => { s' with lastCallTime := newest.time + 1 }
    | none => s'
  else s

/-- Second block of the `fetchCalls` success path: if playback is desired
and the audio element is idle, start the next call. -/
def fetchOkPlay (s : ScannerState) : ScannerState :=
  if s.isPlaying && (s.audioPaused || s.audioEnded) then playNextCall s else s

/-- Third block of the `fetchCalls` success path: fall back to the
listening status when the queue is empty and the element is paused. -/
def fetchOkStatus (s : ScannerState) : ScannerState :=
  if s.callQueue.isEmpty && s.audioPaused then
    { s with status := "Listening for calls..." }
  else s

/-- Success path of `fetchCalls` after `data.calls || []` has produced
`calls`: the three blocks above in source order. -/
def fetchOk (s : ScannerState) (calls : List CallRecord) : ScannerState :=
  fetchOkStatus (fetchOkPlay (fetchOkQueue s calls))

/-- `ScannerPlayer.fetchCalls`, with the network outcome as an oracle.
`Except.error` covers a fetch rejection, a non-2xx response, and a JSON
parse failure — all of which occur before any state is mutated; the catch
block only resets the status. -/
def fetchCalls (s : ScannerState) (outcome : Except Unit (List CallRecord)) : ScannerState :=
  if isOpenmhzFeed s.currentFeed then
    match outcome with
    | Except.error _ => { s with status := "Listening for calls..." }
    | Except.ok calls => fetchOk s calls
  else s

/-- `ScannerPlayer.stopOpenMHz`: clear the stored interval (removing it from
the set of live timers) and drop the queue. -/
def stopOpenMHz (s : ScannerState) : ScannerState :=
  let s' :=
    match s.pollTimer with
    | some t => { s with activeTimers := s.activeTimers.erase t, pollTimer := none }
    | none => s
  { s' with callQueue := [] }

/-- Synchronous prefix of `startOpenMHz`, up to (and including) issuing the
first `fetchCalls`: the part after `await this.fetchCalls()` — installing
the interval — is a pending continuation counted in `pendingStarts`. -/
def startOpenMHzSync (s : ScannerState) : ScannerState :=
  { s with callQueue := [],
           lastCallTime := s.now - 120000,
           status := "Connecting...",
           liveBadgeHidden := false,
           panelActive := true,
           vizActive := true,
           pendingStarts := s.pendingStarts + 1 }

/-- Resumption of one pending `startOpenMHz` continuation: the awaited
`fetchCalls` completes with `outcome`, then `setInterval` installs a fresh
timer whose handle overwrites `pollTimer`. -/
def resolveStart (s : ScannerState) (outcome : Except Unit (List CallRecord)) : ScannerState :=
  if s.pendingStarts = 0 then s
  else
    let s1 := fetchCalls { s with pendingStarts := s.pendingStarts - 1 } outcome
    { s1 with pollTimer := some s1.nextTimer,
              activeTimers := s1.activeTimers ++ [s1.nextTimer],
              nextTimer := s1.nextTimer + 1 }

/-- `ScannerPlayer.resetAudio`: stop polling, pause, drop the source. -/
def resetAudio (s : ScannerState) : ScannerState :=
  let s' := stopOpenMHz s
  { s' with audioPaused := true, audioSrc := none, audioEnded := false }

/-- `ScannerPlayer.onFeedChange` with the selected feed as argument (the
select control only offers entries of `SCANNER_FEEDS`). -/
def onFeedChange (s : ScannerState) (f : Feed) : ScannerState :=
  let s1 := resetAudio s
  let s2 := { s1 with currentFeed := some f, status := f.desc }
  let s3 :=
    if f.type = FeedType.openmhz then startOpenMHzSync s2
    else { s2 with audioSrc := some f.url, audioPaused := false }
  { s3 with isPlaying := true, playBtnPlaying := true }

/-- `ScannerPlayer.togglePlay`. -/
def togglePlay (s : ScannerState) : ScannerState :=
  match s.currentFeed with
  | none => s
  | some f =>
    if s.isPlaying then
      let s1 := if f.type = FeedType.openmhz then stopOpenMHz s else s
      { s1 with audioPaused := true, isPlaying := false, playBtnPlaying := false,
                panelActive := false, liveBadgeHidden := true, vizActive := false }
    else
      let s1 := { s with isPlaying := true, playBtnPlaying := true }
      if f.type = FeedType.openmhz then startOpenMHzSync s1
      else { s1 with audioSrc := some f.url, audioPaused := false }

/-- Handler of the audio element's `playing` event. -/
def onPlayingEvt (s : ScannerState) : ScannerState :=
  { s with liveBadgeHidden := false, panelActive := true, vizActive := true }

/-- Handler of the audio element's `waiting` event. -/
def onWaitingEvt (s : ScannerState) : ScannerState :=
  { s with status := "Buffering..." }

/-- Handler of the audio element's `error` event: advance the queue for
OpenMHz feeds, otherwise surface the unavailable status and deactivate. -/
def onErrorEvt (s : ScannerState) : ScannerState :=
  if isOpenmhzFeed s.currentFeed then playNextCall s
  else
    { s with status := "Stream unavailable — try another city",
             liveBadgeHidden := true, panelActive := false, vizActive := false,
             isPlaying := false, playBtnPlaying := false }

/-- Handler of the audio element's `pause` event: a pause between OpenMHz
calls while playback intent is active is ignored. -/
def onPauseEvt (s : ScannerState) : ScannerState :=
  if isOpenmhzFeed s.currentFeed && s.isPlaying then s
  else
    { s with panelActive := false, liveBadgeHidden := true, vizActive := false }

/-- Handler of the audio element's `ended` event. -/
def onEndedEvt (s : ScannerState) : ScannerState :=
  if isOpenmhzFeed s.currentFeed && s.isPlaying then playNextCall s else s

/-- Events the scanner controller reacts to, with network outcomes and the
selected feed carried as data. -/
inductive SEvent where
  | playingEvt
  | waitingEvt
  | errorEvt
  | pauseEvt
  | endedEvt
  | feedChange (f : Feed)
  | toggle
  | startResolved (o : Except Unit (List CallRecord))
  | pollTick (o : Except Unit (List CallRecord))

/-- One event-loop step of the scanner controller.  A `pollTick` is a
callback of an installed interval, so it only fires while some timer is
live. -/
def step : SEvent → ScannerState → ScannerState
  | SEvent.playingEvt, s => onPlayingEvt s
  | SEvent.waitingEvt, s => onWaitingEvt s
  | SEvent.errorEvt, s => onErrorEvt s
  | SEvent.pauseEvt, s => onPauseEvt s
  | SEvent.endedEvt, s => onEndedEvt s
  | SEvent.feedChange f, s => onFeedChange s f
  | SEvent.toggle, s => togglePlay s
  | SEvent.startResolved o, s => resolveStart s o
  | SEvent.pollTick o, s => if s.activeTimers.isEmpty then s else fetchCalls s o

/-- State built by the `ScannerPlayer` constructor. -/
def initialState : ScannerState :=
  { isPlaying := false, currentFeed := none, callQueue := [], pollTimer := none,
    lastCallTime := 0, status := "", liveBadgeHidden := true, panelActive := false,
    vizActive := false, playBtnPlaying := false, audioSrc := none,
    audioPaused := true, audioEnded := false, activeTimers := [],
    pendingStarts := 0, nextTimer := 0, now := 1700000000000 }

end ScannerPlayer

/-- One swap step `[l[i], l[j]] = [l[j], l[i]]` of the Fisher–Yates loop. -/
def swapList (l : List Nat) (i j : Nat) : List Nat :=
  (l.set i (l.getD j 0)).set j (l.getD i 0)

/-- Loop of `shuffleIndices`, with the `Math.random` draws supplied by an
oracle `f`; `fisherYatesAux f i l` performs the iterations for the loop
variable running from `i` down to `1`. -/
def fisherYatesAux (f : Nat → Nat) : Nat → List Nat → List Nat
  | 0, l => l
  | i + 1, l => fisherYatesAux f i (swapList l (i + 1) (f (i + 1)))

/-- `shuffleIndices(count)`: a Fisher–Yates shuffle of `[0..count)`.  The
oracle value `f i` stands for `Math.floor(Math.random() * (i + 1))`, which
always lands in `[0, i]`. -/
def shuffleIndices (count : Nat) (f : Nat → Nat) : List Nat :=
  fisherYatesAux f (count - 1) (List.range count)

/-- State of the `AmbientPlayer` shuffle cursor.  `ready` models
`this.widget && this.ready`; `currentTrack` is the index most recently
passed to `widget.skip`. -/
structure AmbientState where
  shuffledOrder : List Nat
  shufflePos : Nat
  trackCount : Nat
  ready : Bool
  isPlaying : Bool
  currentTrack : Nat
deriving DecidableEq, Repr

namespace AmbientPlayer

/-- `AmbientPlayer.next`: advance the cursor, regenerating the shuffled
order (via the oracle `f`) exactly when the cursor wraps to `0`, then skip
to the track at the new cursor. -/
def next (s : AmbientState) (f : Nat → Nat) : AmbientState :=
  if !s.ready || s.trackCount = 0 then s
  else
    let pos := (s.shufflePos + 1) % s.shuffledOrder.length
    let order := if pos = 0 then shuffleIndices s.trackCount f else s.shuffledOrder
    { s with shufflePos := pos, shuffledOrder := order,
             currentTrack := order.getD pos 0 }

/-- `AmbientPlayer.prev`: retreat the cursor with wraparound
(`(pos - 1 + len) % len`, written on `Nat` as `(pos + len - 1) % len`,
which agrees for `pos < len`). -/
def prev (s : AmbientState) : AmbientState :=
  if !s.ready || s.trackCount = 0 then s
  else
    let len := s.shuffledOrder.length
    let pos := (s.shufflePos + len - 1) % len
    { s with shufflePos := pos, currentTrack := s.shuffledOrder.getD pos 0 }

/-- Shuffle-cursor effect of `AmbientPlayer.onPlaylistLoaded` once
`getSounds` reports `count` tracks: for a non-empty playlist, generate a
fresh order, reset the cursor and skip to its first entry; otherwise only
record the track count. -/
def onPlaylistLoaded (s : AmbientState) (count : Nat) (f : Nat → Nat) : AmbientState :=
  let s1 := { s with trackCount := count }
  if count > 0 then
    let order := shuffleIndices count f
    { s1 with shuffledOrder := order, shufflePos := 0,
              currentTrack := order.getD 0 0 }
  else s1

/-- Iterate `next` `k` times; `fs j` is the oracle used by the `j`-th call. -/
def runNext (s : AmbientState) (fs : Nat → Nat → Nat) : Nat → AmbientState
  | 0 => s
  | k + 1 => next (runNext s fs k) (fs k)

/-- Track indices visited after `0, 1, ..., k` calls to `next`
(`k + 1` entries, beginning with the currently playing track). -/
def visitedTracks (s : AmbientState) (fs : Nat → Nat → Nat) (k : Nat) : List Nat :=
  (List.range (k + 1)).map (fun i => (runNext s fs i).currentTrack)

end AmbientPlayer

/-! ### Helper lemmas about the scanner controller -/

lemma playFromQueue_preserves (s : ScannerState) :
    ∀ q : List CallRecord,
      (ScannerPlayer.playFromQueue s q).isPlaying = s.isPlaying ∧
      (ScannerPlayer.playFromQueue s q).panelActive = s.panelActive ∧
      (ScannerPlayer.playFromQueue s q).liveBadgeHidden = s.liveBadgeHidden ∧
      (ScannerPlayer.playFromQueue s q).vizActive = s.vizActive ∧
      (ScannerPlayer.playFromQueue s q).playBtnPlaying = s.playBtnPlaying ∧
      (ScannerPlayer.playFromQueue s q).pollTimer = s.pollTimer ∧
      (ScannerPlayer.playFromQueue s q).activeTimers = s.activeTimers ∧
      (ScannerPlayer.playFromQueue s q).lastCallTime = s.lastCallTime ∧
      (ScannerPlayer.playFromQueue s q).currentFeed = s.currentFeed ∧
      (ScannerPlayer.playFromQueue s q).pendingStarts = s.pendingStarts ∧
      (ScannerPlayer.playFromQueue s q).nextTimer = s.nextTimer := by
  intro q
  induction q with
  | nil => simp [ScannerPlayer.playFromQueue]
  | cons c rest ih =>
    by_cases hu : c.url ≠ ""
    · simp [ScannerPlayer.playFromQueue, hu]
    · by_cases hf : c.filename ≠ ""
      · simp [ScannerPlayer.playFromQueue, hu, hf]
      · simpa [ScannerPlayer.playFromQueue, hu, hf] using ih

lemma playFromQueue_queue_subset (s : ScannerState) :
    ∀ q : List CallRecord, ∀ c ∈ (ScannerPlayer.playFromQueue s q).callQueue, c ∈ q := by
  intro q
  induction q with
  | nil => simp [ScannerPlayer.playFromQueue]
  | cons c rest ih =>
    intro d hd
    unfold ScannerPlayer.playFromQueue at hd
    by_cases hu : c.url ≠ ""
    · rw [if_pos hu] at hd
      exact List.mem_cons_of_mem c hd
    · rw [if_neg hu] at hd
      by_cases hf : c.filename ≠ ""
      · rw [if_pos hf] at hd
        exact List.mem_cons_of_mem c hd
      · rw [if_neg hf] at hd
        exact List.mem_cons_of_mem c (ih d hd)

lemma fetchOkQueue_fields (s : ScannerState) (calls : List CallRecord) :
    (ScannerPlayer.fetchOkQueue s calls).isPlaying = s.isPlaying ∧
    (ScannerPlayer.fetchOkQueue s calls).panelActive = s.panelActive ∧
    (ScannerPlayer.fetchOkQueue s calls).liveBadgeHidden = s.liveBadgeHidden ∧
    (ScannerPlayer.fetchOkQueue s calls).vizActive = s.vizActive ∧
    (ScannerPlayer.fetchOkQueue s calls).playBtnPlaying = s.playBtnPlaying ∧
    (ScannerPlayer.fetchOkQueue s calls).currentFeed = s.currentFeed ∧
    (ScannerPlayer.fetchOkQueue s calls).pollTimer = s.pollTimer ∧
    (ScannerPlayer.fetchOkQueue s calls).activeTimers = s.activeTimers ∧
    (ScannerPlayer.fetchOkQueue s calls).audioPaused = s.audioPaused ∧
    (ScannerPlayer.fetchOkQueue s calls).audioEnded = s.audioEnded ∧
    (ScannerPlayer.fetchOkQueue s calls).callQueue
      = s.callQueue ++ calls.filter (fun c => 1 < c.len) ∧
    (∀ hne : calls ≠ [],
      (ScannerPlayer.fetchOkQueue s calls).lastCallTime = (calls.getLast hne).time + 1) := by
  unfold ScannerPlayer.fetchOkQueue
  rcases eq_or_ne calls [] with h | h
  · subst h
    simp
  · have hlen : calls.length > 0 := List.length_pos.mpr h
    have hlast : calls.getLast? = some (calls.getLast h) := List.getLast?_eq_getLast calls h
    rw [if_pos hlen, hlast]
    simp

lemma fetchOkPlay_fields (s : ScannerState) :
    (ScannerPlayer.fetchOkPlay s).isPlaying = s.isPlaying ∧
    (ScannerPlayer.fetchOkPlay s).panelActive = s.panelActive ∧
    (ScannerPlayer.fetchOkPlay s).liveBadgeHidden = s.liveBadgeHidden ∧
    (ScannerPlayer.fetchOkPlay s).vizActive = s.vizActive ∧
    (ScannerPlayer.fetchOkPlay s).playBtnPlaying = s.playBtnPlaying ∧
    (ScannerPlayer.fetchOkPlay s).currentFeed = s.currentFeed ∧
    (ScannerPlayer.fetchOkPlay s).pollTimer = s.pollTimer ∧
    (ScannerPlayer.fetchOkPlay s).activeTimers = s.activeTimers ∧
    (ScannerPlayer.fetchOkPlay s).lastCallTime = s.lastCallTime ∧
    (∀ c ∈ (ScannerPlayer.fetchOkPlay s).callQueue, c ∈ s.callQueue) := by
  unfold ScannerPlayer.fetchOkPlay
  by_cases hb : s.isPlaying && (s.audioPaused || s.audioEnded)
  · rw [if_pos hb]
    obtain ⟨h1, h2, h3, h4, h5, h6, h7, h8, h9, _⟩ :=
      playFromQueue_preserves s s.callQueue
    exact ⟨h1, h2, h3, h4, h5, h9, h6, h7, h8, playFromQueue_queue_subset s s.callQueue⟩
  · rw [if_neg hb]
    exact ⟨rfl, rfl, rfl, rfl, rfl, rfl, rfl, rfl, rfl, fun c hc => hc⟩

lemma fetchOkStatus_fields (s : ScannerState) :
    (ScannerPlayer.fetchOkStatus s).isPlaying = s.isPlaying ∧
    (ScannerPlayer.fetchOkStatus s).panelActive = s.panelActive ∧
    (ScannerPlayer.fetchOkStatus s).liveBadgeHidden = s.liveBadgeHidden ∧
    (ScannerPlayer.fetchOkStatus s).vizActive = s.vizActive ∧
    (ScannerPlayer.fetchOkStatus s).playBtnPlaying = s.playBtnPlaying ∧
    (ScannerPlayer.fetchOkStatus s).currentFeed = s.currentFeed ∧
    (ScannerPlayer.fetchOkStatus s).pollTimer = s.pollTimer ∧
    (ScannerPlayer.fetchOkStatus s).activeTimers = s.activeTimers ∧
    (ScannerPlayer.fetchOkStatus s).lastCallTime = s.lastCallTime ∧
    (ScannerPlayer.fetchOkStatus s).callQueue = s.callQueue := by
  unfold ScannerPlayer.fetchOkStatus
  split <;> exact ⟨rfl, rfl, rfl, rfl, rfl, rfl, rfl, rfl, rfl, rfl⟩

lemma fetchOk_lastCallTime (s : ScannerState) (calls : List CallRecord) (hne : calls ≠ []) :
    (ScannerPlayer.fetchOk s calls).lastCallTime = (calls.getLast hne).time + 1 := by
  unfold ScannerPlayer.fetchOk
  rw [(fetchOkStatus_fields _).2.2.2.2.2.2.2.2.1,
      (fetchOkPlay_fields _).2.2.2.2.2.2.2.2.1]
  exact (fetchOkQueue_fields s calls).2.2.2.2.2.2.2.2.2.2.2 hne

lemma fetchOk_preserves_ui (s : ScannerState) (calls : List CallRecord) :
    (ScannerPlayer.fetchOk s calls).isPlaying = s.isPlaying ∧
    (ScannerPlayer.fetchOk s calls).panelActive = s.panelActive ∧
    (ScannerPlayer.fetchOk s calls).liveBadgeHidden = s.liveBadgeHidden ∧
    (ScannerPlayer.fetchOk s calls).vizActive = s.vizActive ∧
    (ScannerPlayer.fetchOk s calls).playBtnPlaying = s.playBtnPlaying ∧
    (ScannerPlayer.fetchOk s calls).currentFeed = s.currentFeed := by
  unfold ScannerPlayer.fetchOk
  obtain ⟨q1, q2, q3, q4, q5, q6, _⟩ := fetchOkQueue_fields s calls
  obtain ⟨p1, p2, p3, p4, p5, p6, _⟩ := fetchOkPlay_fields (ScannerPlayer.fetchOkQueue s calls)
  obtain ⟨t1, t2, t3, t4, t5, t6, _⟩ :=
    fetchOkStatus_fields (ScannerPlayer.fetchOkPlay (ScannerPlayer.fetchOkQueue s calls))
  exact ⟨by rw [t1, p1, q1], by rw [t2, p2, q2], by rw [t3, p3, q3],
         by rw [t4, p4, q4], by rw [t5, p5, q5], by rw [t6, p6, q6]⟩

lemma fetchCalls_preserves_ui (s : ScannerState) (o : Except Unit (List CallRecord)) :
    (ScannerPlayer.fetchCalls s o).isPlaying = s.isPlaying ∧
    (ScannerPlayer.fetchCalls s o).panelActive = s.panelActive ∧
    (ScannerPlayer.fetchCalls s o).liveBadgeHidden = s.liveBadgeHidden ∧
    (ScannerPlayer.fetchCalls s o).vizActive = s.vizActive ∧
    (ScannerPlayer.fetchCalls s o).playBtnPlaying = s.playBtnPlaying ∧
    (ScannerPlayer.fetchCalls s o).currentFeed = s.currentFeed := by
  unfold ScannerPlayer.fetchCalls
  split
  · cases o with
    | error e => simp
    | ok calls => exact fetchOk_preserves_ui s calls
  · simp

/-- C9: if any step of a poll fails (fetch rejection, non-2xx response, or
JSON parse failure — all before any mutation), `fetchCalls` leaves the call
queue and the watermark exactly as they were, and the installed polling
interval is untouched, so the next scheduled attempt still occurs. -/
theorem fetchCalls_failure_preserves_state (s : ScannerState) :
    (ScannerPlayer.fetchCalls s (Except.error ())).callQueue = s.callQueue ∧
    (ScannerPlayer.fetchCalls s (Except.error ())).lastCallTime = s.lastCallTime ∧
    (ScannerPlayer.fetchCalls s (Except.error ())).pollTimer = s.pollTimer ∧
    (ScannerPlayer.fetchCalls s (Except.error ())).activeTimers = s.activeTimers := by
  unfold ScannerPlayer.fetchCalls
  split <;> simp

/-- Property of the external OpenMHz query `calls/newer?time=T`: every call
of the returned batch is at or after the requested watermark. -/
def newerBatch (watermark : Int) (batch : List CallRecord) : Prop :=
  ∀ c ∈ batch, watermark ≤ c.time

/-- The Dallas entry of `SCANNER_FEEDS`. -/
def dallasFeed : Feed :=
  ⟨"Dallas", "TX", "Police & Fire", FeedType.openmhz, "ntirnd1", ""⟩

/-- The San Francisco entry of `SCANNER_FEEDS`. -/
def sfFeed : Feed :=
  ⟨"San Francisco", "CA", "Police", FeedType.openmhz, "sfp25", ""⟩

/-- C2: a successful poll with a non-empty batch (whose last element is the
newest — the API returns chronological order) sets the watermark to the
newest call's timestamp plus 1 ms; consequently every call of any later
batch at or after that watermark is strictly newer than every call of this
batch, so no call is fetched twice across successive polls. -/
theorem fetchCalls_watermark_advances (s : ScannerState) (calls : List CallRecord)
    (hfeed : ScannerPlayer.isOpenmhzFeed s.currentFeed = true)
    (hne : calls ≠ [])
    (hnewest : ∀ c ∈ calls, c.time ≤ (calls.getLast hne).time) :
    (ScannerPlayer.fetchCalls s (Except.ok calls)).lastCallTime
      = (calls.getLast hne).time + 1 ∧
    (∀ calls2 : List CallRecord,
      newerBatch (ScannerPlayer.fetchCalls s (Except.ok calls)).lastCallTime calls2 →
      ∀ c2 ∈ calls2, ∀ c ∈ calls, c.time < c2.time) := by
  have hfc : ScannerPlayer.fetchCalls s (Except.ok calls) = ScannerPlayer.fetchOk s calls := by
    unfold ScannerPlayer.fetchCalls
    simp [hfeed]
  have hw : (ScannerPlayer.fetchCalls s (Except.ok calls)).lastCallTime
      = (calls.getLast hne).time + 1 := by
    rw [hfc]
    exact fetchOk_lastCallTime s calls hne
  refine ⟨hw, ?_⟩
  intro calls2 hnew c2 hc2 c hc
  have h1 : c.time ≤ (calls.getLast hne).time := hnewest c hc
  have h2 : (calls.getLast hne).time + 1 ≤ c2.time := by
    have h := hnew c2 hc2
    rwa [hw] at h
  omega

/-- Concrete state for the C2 witness: the Dallas feed is selected. -/
def c2State : ScannerState :=
  { ScannerPlayer.initialState with currentFeed := some dallasFeed }

/-- Witness for C2: a two-call batch with timestamps 1000 and 2000 leaves
the watermark at 2001, and later batches cannot repeat either call. -/
theorem fetchCalls_watermark_advances_witness :
    ScannerPlayer.isOpenmhzFeed c2State.currentFeed = true ∧
    ([(⟨5, 1000, "a", ""⟩ : CallRecord), ⟨10, 2000, "b", ""⟩] ≠ ([] : List CallRecord)) ∧
    ((ScannerPlayer.fetchCalls c2State
        (Except.ok [⟨5, 1000, "a", ""⟩, ⟨10, 2000, "b", ""⟩])).lastCallTime
      = (([(⟨5, 1000, "a", ""⟩ : CallRecord), ⟨10, 2000, "b", ""⟩].getLast (by decide)).time + 1) ∧
     (∀ calls2 : List CallRecord,
       newerBatch (ScannerPlayer.fetchCalls c2State
         (Except.ok [⟨5, 1000, "a", ""⟩, ⟨10, 2000, "b", ""⟩])).lastCallTime calls2 →
       ∀ c2 ∈ calls2, ∀ c ∈ [(⟨5, 1000, "a", ""⟩ : CallRecord), ⟨10, 2000, "b", ""⟩],
         c.time < c2.time)) :=
  ⟨by decide, by decide,
   fetchCalls_watermark_advances c2State [⟨5, 1000, "a", ""⟩, ⟨10, 2000, "b", ""⟩]
     (by decide) (by decide) (by decide)⟩

/-- C4: on a successful poll, exactly the calls with duration strictly
greater than 1 are appended to the queue (literally, when the audio
element is busy so none is immediately dequeued), the queue only ever
contains calls with duration > 1, and on a non-empty batch the watermark
becomes the last call's timestamp + 1 ms. -/
theorem fetch_appends_exactly_long_calls (s : ScannerState) (calls : List CallRecord)
    (hfeed : ScannerPlayer.isOpenmhzFeed s.currentFeed = true)
    (hq : ∀ c ∈ s.callQueue, 1 < c.len) :
    (∀ c ∈ (ScannerPlayer.fetchCalls s (Except.ok calls)).callQueue, 1 < c.len) ∧
    ((s.isPlaying && (s.audioPaused || s.audioEnded)) = false →
       (ScannerPlayer.fetchCalls s (Except.ok calls)).callQueue
         = s.callQueue ++ calls.filter (fun c => 1 < c.len)) ∧
    (∀ hne : calls ≠ [],
       (ScannerPlayer.fetchCalls s (Except.ok calls)).lastCallTime
         = (calls.getLast hne).time + 1) := by
  have hfc : ScannerPlayer.fetchCalls s (Except.ok calls) = ScannerPlayer.fetchOk s calls := by
    unfold ScannerPlayer.fetchCalls
    simp [hfeed]
  have hdef : ScannerPlayer.fetchOk s calls
      = ScannerPlayer.fetchOkStatus
          (ScannerPlayer.fetchOkPlay (ScannerPlayer.fetchOkQueue s calls)) := rfl
  obtain ⟨q1, _, _, _, _, _, _, _, q9, q10, q11, q12⟩ := fetchOkQueue_fields s calls
  have hall : ∀ c ∈ (ScannerPlayer.fetchOkQueue s calls).callQueue, 1 < c.len := by
    rw [q11]
    intro c hc
    rcases List.mem_append.mp hc with h | h
    · exact hq c h
    · have hm := List.mem_filter.mp h
      exact of_decide_eq_true hm.2
  have hstat :=
    (fetchOkStatus_fields
      (ScannerPlayer.fetchOkPlay (ScannerPlayer.fetchOkQueue s calls))).2.2.2.2.2.2.2.2.2
  refine ⟨?_, ?_, ?_⟩
  · intro c hc
    rw [hfc, hdef, hstat] at hc
    exact hall c
      ((fetchOkPlay_fields (ScannerPlayer.fetchOkQueue s calls)).2.2.2.2.2.2.2.2.2 c hc)
  · intro hbusy
    have hcond : ((ScannerPlayer.fetchOkQueue s calls).isPlaying &&
        ((ScannerPlayer.fetchOkQueue s calls).audioPaused ||
         (ScannerPlayer.fetchOkQueue s calls).audioEnded)) = false := by
      rw [q1, q9, q10]
      exact hbusy
    have hplay : ScannerPlayer.fetchOkPlay (ScannerPlayer.fetchOkQueue s calls)
        = ScannerPlayer.fetchOkQueue s calls := by
      unfold ScannerPlayer.fetchOkPlay
      rw [hcond]
      simp
    rw [hfc, hdef, hstat, hplay, q11]
  · intro hne
    rw [hfc]
    exact fetchOk_lastCallTime s calls hne

/-- Concrete state for the C4 witness: Dallas feed selected, playback
desired, audio element currently playing (not paused, not ended). -/
def c4State : ScannerState :=
  { ScannerPlayer.initialState with
      currentFeed := some dallasFeed, isPlaying := true, audioPaused := false }

/-- Witness for C4, the spec scenario: batch
`[{len:0.5}, {len:5, time: 1000}, {len:10, time: 2000}]` adds exactly the
two long calls to the queue and the watermark becomes `2001`. -/
theorem fetch_appends_exactly_long_calls_witness :
    ScannerPlayer.isOpenmhzFeed c4State.currentFeed = true ∧
    (∀ c ∈ c4State.callQueue, 1 < c.len) ∧
    ((c4State.isPlaying && (c4State.audioPaused || c4State.audioEnded)) = false →
       (ScannerPlayer.fetchCalls c4State
          (Except.ok [⟨⟨1, 2, by decide, by decide⟩, 500, "x", ""⟩, ⟨5, 1000, "y", ""⟩, ⟨10, 2000, "z", ""⟩])).callQueue
         = c4State.callQueue ++
             [(⟨⟨1, 2, by decide, by decide⟩, 500, "x", ""⟩ : CallRecord), ⟨5, 1000, "y", ""⟩,
              ⟨10, 2000, "z", ""⟩].filter (fun c => 1 < c.len)) ∧
    (ScannerPlayer.fetchCalls c4State
       (Except.ok [⟨⟨1, 2, by decide, by decide⟩, 500, "x", ""⟩, ⟨5, 1000, "y", ""⟩, ⟨10, 2000, "z", ""⟩])).callQueue
      = [⟨5, 1000, "y", ""⟩, ⟨10, 2000, "z", ""⟩] ∧
    (ScannerPlayer.fetchCalls c4State
       (Except.ok [⟨⟨1, 2, by decide, by decide⟩, 500, "x", ""⟩, ⟨5, 1000, "y", ""⟩, ⟨10, 2000, "z", ""⟩])).lastCallTime
      = 2001 :=
  ⟨by decide, by simp [c4State, ScannerPlayer.initialState],
   (fetch_appends_exactly_long_calls c4State
      [⟨⟨1, 2, by decide, by decide⟩, 500, "x", ""⟩, ⟨5, 1000, "y", ""⟩, ⟨10, 2000, "z", ""⟩]
      (by decide) (by simp [c4State, ScannerPlayer.initialState])).2.1,
   by decide, by decide⟩

lemma stopOpenMHz_fields (s : ScannerState) :
    (ScannerPlayer.stopOpenMHz s).isPlaying = s.isPlaying ∧
    (ScannerPlayer.stopOpenMHz s).panelActive = s.panelActive ∧
    (ScannerPlayer.stopOpenMHz s).liveBadgeHidden = s.liveBadgeHidden ∧
    (ScannerPlayer.stopOpenMHz s).vizActive = s.vizActive ∧
    (ScannerPlayer.stopOpenMHz s).playBtnPlaying = s.playBtnPlaying ∧
    (ScannerPlayer.stopOpenMHz s).currentFeed = s.currentFeed ∧
    (ScannerPlayer.stopOpenMHz s).callQueue = [] ∧
    (ScannerPlayer.stopOpenMHz s).pollTimer = none := by
  cases hpt : s.pollTimer <;> simp [ScannerPlayer.stopOpenMHz, hpt]

lemma resetAudio_fields (s : ScannerState) :
    (ScannerPlayer.resetAudio s).isPlaying = s.isPlaying ∧
    (ScannerPlayer.resetAudio s).panelActive = s.panelActive ∧
    (ScannerPlayer.resetAudio s).liveBadgeHidden = s.liveBadgeHidden ∧
    (ScannerPlayer.resetAudio s).vizActive = s.vizActive ∧
    (ScannerPlayer.resetAudio s).playBtnPlaying = s.playBtnPlaying ∧
    (ScannerPlayer.resetAudio s).currentFeed = s.currentFeed ∧
    (ScannerPlayer.resetAudio s).callQueue = [] ∧
    (ScannerPlayer.resetAudio s).audioSrc = none := by
  cases hpt : s.pollTimer <;>
    simp [ScannerPlayer.resetAudio, ScannerPlayer.stopOpenMHz, hpt]

/-- C6: on an audio-element `error` event, if the current feed is a
call-queue (OpenMHz) feed the next queued call is attempted automatically
and the visible live/active state (playing flag, panel, badge, visualizer,
button) is left unchanged; if the current feed is a direct stream, the
status becomes the unavailable message, the playing flag becomes false, and
the live indicator is hidden. -/
theorem audio_error_handling (s : ScannerState) :
    (ScannerPlayer.isOpenmhzFeed s.currentFeed = true →
       (ScannerPlayer.onErrorEvt s).isPlaying = s.isPlaying ∧
       (ScannerPlayer.onErrorEvt s).panelActive = s.panelActive ∧
       (ScannerPlayer.onErrorEvt s).liveBadgeHidden = s.liveBadgeHidden ∧
       (ScannerPlayer.onErrorEvt s).vizActive = s.vizActive ∧
       (ScannerPlayer.onErrorEvt s).playBtnPlaying = s.playBtnPlaying ∧
       (∀ c rest, s.callQueue = c :: rest → c.url ≠ "" →
          (ScannerPlayer.onErrorEvt s).audioSrc = some c.url ∧
          (ScannerPlayer.onErrorEvt s).callQueue = rest)) ∧
    (∀ f, s.currentFeed = some f → f.type = FeedType.stream →
       (ScannerPlayer.onErrorEvt s).status = "Stream unavailable — try another city" ∧
       (ScannerPlayer.onErrorEvt s).isPlaying = false ∧
       (ScannerPlayer.onErrorEvt s).liveBadgeHidden = true ∧
       (ScannerPlayer.onErrorEvt s).panelActive = false) := by
  constructor
  · intro hfeed
    have he : ScannerPlayer.onErrorEvt s = ScannerPlayer.playNextCall s := by
      unfold ScannerPlayer.onErrorEvt
      simp [hfeed]
    obtain ⟨h1, h2, h3, h4, h5, _⟩ := playFromQueue_preserves s s.callQueue
    rw [he]
    refine ⟨h1, h2, h3, h4, h5, ?_⟩
    intro c rest hqc hu
    unfold ScannerPlayer.playNextCall
    rw [hqc]
    unfold ScannerPlayer.playFromQueue
    rw [if_pos hu]
    exact ⟨rfl, rfl⟩
  · intro f hf htype
    have hfeed : ScannerPlayer.isOpenmhzFeed s.currentFeed = false := by
      rw [hf]
      simp [ScannerPlayer.isOpenmhzFeed, htype]
    unfold ScannerPlayer.onErrorEvt
    simp [hfeed]

/-- A stream-type feed used to exercise the direct-stream branch. -/
def streamFeed : Feed :=
  ⟨"Testville", "TX", "Fire", FeedType.stream, "", "https://example.com/stream"⟩

/-- Concrete queue-feed state for the C6 witness. -/
def c6QueueState : ScannerState :=
  { ScannerPlayer.initialState with
      currentFeed := some dallasFeed, isPlaying := true, panelActive := true,
      liveBadgeHidden := false, vizActive := true, playBtnPlaying := true,
      callQueue := [⟨5, 1000, "u", ""⟩, ⟨7, 1500, "v", ""⟩] }

/-- Concrete direct-stream state for the C6 witness. -/
def c6StreamState : ScannerState :=
  { ScannerPlayer.initialState with
      currentFeed := some streamFeed, isPlaying := true, panelActive := true }

/-- Witness for C6 on both branches. -/
theorem audio_error_handling_witness :
    (ScannerPlayer.onErrorEvt c6QueueState).isPlaying = true ∧
    (ScannerPlayer.onErrorEvt c6QueueState).panelActive = true ∧
    (ScannerPlayer.onErrorEvt c6QueueState).liveBadgeHidden = false ∧
    (ScannerPlayer.onErrorEvt c6QueueState).audioSrc = some "u" ∧
    (ScannerPlayer.onErrorEvt c6QueueState).callQueue = [⟨7, 1500, "v", ""⟩] ∧
    (ScannerPlayer.onErrorEvt c6StreamState).status
      = "Stream unavailable — try another city" ∧
    (ScannerPlayer.onErrorEvt c6StreamState).isPlaying = false ∧
    (ScannerPlayer.onErrorEvt c6StreamState).liveBadgeHidden = true ∧
    (ScannerPlayer.onErrorEvt c6StreamState).panelActive = false := by
  have hq := (audio_error_handling c6QueueState).1 (by decide)
  have hs := (audio_error_handling c6StreamState).2 streamFeed rfl rfl
  obtain ⟨a1, a2, a3, _, _, a6⟩ := hq
  obtain ⟨b1, b2, b3, b4⟩ := hs
  have hsrc := a6 ⟨5, 1000, "u", ""⟩ [⟨7, 1500, "v", ""⟩] rfl (by decide)
  exact ⟨a1, a2, a3, hsrc.1, hsrc.2, b1, b2, b3, b4⟩

/-- C8: while the current feed is a call-queue feed and playback intent is
active, no event other than the explicit stop action (`toggle`) ever
deactivates the active UI state (panel active class, live badge,
visualizer); in particular a `pause` event between calls leaves it
untouched, and a direct-stream error cannot occur in this configuration. -/
theorem queue_pause_never_deactivates (s : ScannerState) (e : ScannerPlayer.SEvent)
    (hfeed : ScannerPlayer.isOpenmhzFeed s.currentFeed = true)
    (hplay : s.isPlaying = true)
    (hpanel : s.panelActive = true) (hbadge : s.liveBadgeHidden = false)
    (hviz : s.vizActive = true)
    (hstop : e ≠ ScannerPlayer.SEvent.toggle) :
    (ScannerPlayer.step e s).panelActive = true ∧
    (ScannerPlayer.step e s).liveBadgeHidden = false ∧
    (ScannerPlayer.step e s).vizActive = true := by
  cases e with
  | playingEvt => simp [ScannerPlayer.step, ScannerPlayer.onPlayingEvt]
  | waitingEvt =>
    simp [ScannerPlayer.step, ScannerPlayer.onWaitingEvt, hpanel, hbadge, hviz]
  | errorEvt =>
    have he : ScannerPlayer.step ScannerPlayer.SEvent.errorEvt s
        = ScannerPlayer.playNextCall s := by
      simp [ScannerPlayer.step, ScannerPlayer.onErrorEvt, hfeed]
    obtain ⟨_, h2, h3, h4, _⟩ := playFromQueue_preserves s s.callQueue
    rw [he]
    exact ⟨h2.trans hpanel, h3.trans hbadge, h4.trans hviz⟩
  | pauseEvt =>
    have he : ScannerPlayer.step ScannerPlayer.SEvent.pauseEvt s = s := by
      simp [ScannerPlayer.step, ScannerPlayer.onPauseEvt, hfeed, hplay]
    rw [he]
    exact ⟨hpanel, hbadge, hviz⟩
  | endedEvt =>
    have he : ScannerPlayer.step ScannerPlayer.SEvent.endedEvt s
        = ScannerPlayer.playNextCall s := by
      simp [ScannerPlayer.step, ScannerPlayer.onEndedEvt, hfeed, hplay]
    obtain ⟨_, h2, h3, h4, _⟩ := playFromQueue_preserves s s.callQueue
    rw [he]
    exact ⟨h2.trans hpanel, h3.trans hbadge, h4.trans hviz⟩
  | feedChange f =>
    obtain ⟨_, r2, r3, r4, _⟩ := resetAudio_fields s
    by_cases htype : f.type = FeedType.openmhz
    · simp [ScannerPlayer.step, ScannerPlayer.onFeedChange, htype,
            ScannerPlayer.startOpenMHzSync]
    · simp only [ScannerPlayer.step, ScannerPlayer.onFeedChange, htype, if_false]
      simp [htype, r2, r3, r4, hpanel, hbadge, hviz]
  | toggle => exact absurd rfl hstop
  | startResolved o =>
    by_cases hp : s.pendingStarts = 0
    · simp [ScannerPlayer.step, ScannerPlayer.resolveStart, hp, hpanel, hbadge, hviz]
    · obtain ⟨_, f2, f3, f4, _, _⟩ :=
        fetchCalls_preserves_ui { s with pendingStarts := s.pendingStarts - 1 } o
      have he : ScannerPlayer.step (ScannerPlayer.SEvent.startResolved o) s
          = { ScannerPlayer.fetchCalls { s with pendingStarts := s.pendingStarts - 1 } o with
              pollTimer := some (ScannerPlayer.fetchCalls
                { s with pendingStarts := s.pendingStarts - 1 } o).nextTimer,
              activeTimers := (ScannerPlayer.fetchCalls
                { s with pendingStarts := s.pendingStarts - 1 } o).activeTimers
                ++ [(ScannerPlayer.fetchCalls
                      { s with pendingStarts := s.pendingStarts - 1 } o).nextTimer],
              nextTimer := (ScannerPlayer.fetchCalls
                { s with pendingStarts := s.pendingStarts - 1 } o).nextTimer + 1 } := by
        simp [ScannerPlayer.step, ScannerPlayer.resolveStart, hp]
      rw [he]
      exact ⟨f2.trans hpanel, f3.trans hbadge, f4.trans hviz⟩
  | pollTick o =>
    by_cases hT : s.activeTimers.isEmpty
    · simp [ScannerPlayer.step, hT, hpanel, hbadge, hviz]
    · obtain ⟨_, f2, f3, f4, _, _⟩ := fetchCalls_preserves_ui s o
      have he : ScannerPlayer.step (ScannerPlayer.SEvent.pollTick o) s
          = ScannerPlayer.fetchCalls s o := by
        simp [ScannerPlayer.step, hT]
      rw [he]
      exact ⟨f2.trans hpanel, f3.trans hbadge, f4.trans hviz⟩

/-- Concrete state for the C8 witness: Dallas feed active and playing. -/
def c8State : ScannerState :=
  { ScannerPlayer.initialState with
      currentFeed := some dallasFeed, isPlaying := true, panelActive := true,
      liveBadgeHidden := false, vizActive := true, playBtnPlaying := true }

/-- Witness for C8: a pause event in the active queue-feed state. -/
theorem queue_pause_never_deactivates_witness :
    ScannerPlayer.isOpenmhzFeed c8State.currentFeed = true ∧
    c8State.isPlaying = true ∧
    ((ScannerPlayer.step ScannerPlayer.SEvent.pauseEvt c8State).panelActive = true ∧
     (ScannerPlayer.step ScannerPlayer.SEvent.pauseEvt c8State).liveBadgeHidden = false ∧
     (ScannerPlayer.step ScannerPlayer.SEvent.pauseEvt c8State).vizActive = true) :=
  ⟨by decide, by decide,
   queue_pause_never_deactivates c8State ScannerPlayer.SEvent.pauseEvt
     (by decide) (by decide) (by decide) (by decide) (by decide) (by simp)⟩

lemma togglePlay_stop_fields (s : ScannerState) (f : Feed)
    (hfeed : s.currentFeed = some f) (hp : s.isPlaying = true)
    (htype : f.type = FeedType.openmhz) :
    (ScannerPlayer.togglePlay s).isPlaying = false ∧
    (ScannerPlayer.togglePlay s).panelActive = false ∧
    (ScannerPlayer.togglePlay s).liveBadgeHidden = true ∧
    (ScannerPlayer.togglePlay s).vizActive = false ∧
    (ScannerPlayer.togglePlay s).playBtnPlaying = false ∧
    (ScannerPlayer.togglePlay s).currentFeed = s.currentFeed := by
  have hstop := (stopOpenMHz_fields s).2.2.2.2.2.1
  unfold ScannerPlayer.togglePlay
  rw [hfeed]
  simp [hp, htype, hstop, hfeed]

lemma togglePlay_start_fields (s : ScannerState) (f : Feed)
    (hfeed : s.currentFeed = some f) (hp : s.isPlaying = false)
    (htype : f.type = FeedType.openmhz) :
    (ScannerPlayer.togglePlay s).isPlaying = true ∧
    (ScannerPlayer.togglePlay s).panelActive = true ∧
    (ScannerPlayer.togglePlay s).liveBadgeHidden = false ∧
    (ScannerPlayer.togglePlay s).vizActive = true ∧
    (ScannerPlayer.togglePlay s).playBtnPlaying = true ∧
    (ScannerPlayer.togglePlay s).currentFeed = s.currentFeed := by
  unfold ScannerPlayer.togglePlay
  rw [hfeed]
  simp [hp, htype, ScannerPlayer.startOpenMHzSync, hfeed]

/-- C7: from any state with a feed of the program's feed list selected
(both entries are call-queue feeds) and the UI consistent with the playing
flag, calling `togglePlay` twice returns the controller to its original
playing/stopped state: the playing flag and the active UI state (panel,
badge, visualizer, button) equal their values before the first call. -/
theorem togglePlay_twice_restores (s : ScannerState) (f : Feed)
    (hfeed : s.currentFeed = some f) (hmem : f ∈ SCANNER_FEEDS)
    (hpanel : s.panelActive = s.isPlaying) (hbadge : s.liveBadgeHidden = !s.isPlaying)
    (hviz : s.vizActive = s.isPlaying) (hbtn : s.playBtnPlaying = s.isPlaying) :
    (ScannerPlayer.togglePlay (ScannerPlayer.togglePlay s)).isPlaying = s.isPlaying ∧
    (ScannerPlayer.togglePlay (ScannerPlayer.togglePlay s)).panelActive = s.panelActive ∧
    (ScannerPlayer.togglePlay (ScannerPlayer.togglePlay s)).liveBadgeHidden
      = s.liveBadgeHidden ∧
    (ScannerPlayer.togglePlay (ScannerPlayer.togglePlay s)).vizActive = s.vizActive ∧
    (ScannerPlayer.togglePlay (ScannerPlayer.togglePlay s)).playBtnPlaying
      = s.playBtnPlaying := by
  have htype : f.type = FeedType.openmhz := by
    simp [SCANNER_FEEDS] at hmem
    rcases hmem with rfl | rfl <;> rfl
  cases hp : s.isPlaying with
  | false =>
    obtain ⟨a1, _, _, _, _, a6⟩ := togglePlay_start_fields s f hfeed hp htype
    have hfeed1 : (ScannerPlayer.togglePlay s).currentFeed = some f := a6.trans hfeed
    obtain ⟨b1, b2, b3, b4, b5, _⟩ :=
      togglePlay_stop_fields (ScannerPlayer.togglePlay s) f hfeed1 a1 htype
    refine ⟨?_, ?_, ?_, ?_, ?_⟩ <;>
      simp [b1, b2, b3, b4, b5, hpanel, hbadge, hviz, hbtn, hp]
  | true =>
    obtain ⟨a1, _, _, _, _, a6⟩ := togglePlay_stop_fields s f hfeed hp htype
    have hfeed1 : (ScannerPlayer.togglePlay s).currentFeed = some f := a6.trans hfeed
    obtain ⟨b1, b2, b3, b4, b5, _⟩ :=
      togglePlay_start_fields (ScannerPlayer.togglePlay s) f hfeed1 a1 htype
    refine ⟨?_, ?_, ?_, ?_, ?_⟩ <;>
      simp [b1, b2, b3, b4, b5, hpanel, hbadge, hviz, hbtn, hp]

/-- Concrete state for the C7 witness: Dallas feed selected, stopped, UI
inactive. -/
def c7State : ScannerState :=
  { ScannerPlayer.initialState with currentFeed := some dallasFeed }

/-- Witness for C7 at a concrete stopped state. -/
theorem togglePlay_twice_restores_witness :
    c7State.currentFeed = some dallasFeed ∧
    dallasFeed ∈ SCANNER_FEEDS ∧
    ((ScannerPlayer.togglePlay (ScannerPlayer.togglePlay c7State)).isPlaying
        = c7State.isPlaying ∧
     (ScannerPlayer.togglePlay (ScannerPlayer.togglePlay c7State)).panelActive
        = c7State.panelActive ∧
     (ScannerPlayer.togglePlay (ScannerPlayer.togglePlay c7State)).liveBadgeHidden
        = c7State.liveBadgeHidden ∧
     (ScannerPlayer.togglePlay (ScannerPlayer.togglePlay c7State)).vizActive
        = c7State.vizActive ∧
     (ScannerPlayer.togglePlay (ScannerPlayer.togglePlay c7State)).playBtnPlaying
        = c7State.playBtnPlaying) :=
  ⟨rfl, by decide,
   togglePlay_twice_restores c7State dallasFeed rfl (by decide)
     (by decide) (by decide) (by decide) (by decide)⟩

/-- Event trace refuting C1: select the Dallas feed, select the San
Francisco feed while Dallas's initial fetch is still pending (its
`setInterval` is only installed after that fetch resolves), then let both
pending initial fetches resolve. -/
def c1State : ScannerState :=
  ScannerPlayer.step (ScannerPlayer.SEvent.startResolved (Except.ok []))
    (ScannerPlayer.step (ScannerPlayer.SEvent.startResolved (Except.ok []))
      (ScannerPlayer.step (ScannerPlayer.SEvent.feedChange sfFeed)
        (ScannerPlayer.step (ScannerPlayer.SEvent.feedChange dallasFeed)
          ScannerPlayer.initialState)))

/-- C1 (refuted): after the interleaved feed change, TWO poll intervals are
live concurrently while only the second one's handle is stored in
`pollTimer`; the first interval's handle was overwritten, so no code path
can ever clear it.  This contradicts the claimed invariant that at no
reachable state two poll timers are active. -/
theorem two_poll_timers_after_interleaved_feed_change :
    c1State.activeTimers.length = 2 ∧ c1State.pollTimer = some 1 ∧
    c1State.currentFeed = some sfFeed := by decide

/-! ### Helper lemmas about the Fisher–Yates shuffle -/

lemma getD_cons_set_perm (a : Nat) :
    ∀ (t : List Nat) (j : Nat), j < t.length →
      List.Perm (t.getD j 0 :: t.set j a) (a :: t) := by
  intro t
  induction t with
  | nil => intro j hj; simp at hj
  | cons x xs ih =>
    intro j hj
    cases j with
    | zero => simpa using List.Perm.swap a x xs
    | succ m =>
      have hm : m < xs.length := by simpa using hj
      have h1 : List.Perm (xs.getD m 0 :: x :: xs.set m a) (x :: xs.getD m 0 :: xs.set m a) :=
        List.Perm.swap x (xs.getD m 0) (xs.set m a)
      have h2 : List.Perm (x :: xs.getD m 0 :: xs.set m a) (x :: a :: xs) :=
        List.Perm.cons x (ih m hm)
      have h3 : List.Perm (x :: a :: xs) (a :: x :: xs) := List.Perm.swap a x xs
      simpa using (h1.trans h2).trans h3

lemma swapList_perm :
    ∀ (l : List Nat) (i j : Nat), i < l.length → j < l.length →
      List.Perm (swapList l i j) l := by
  intro l
  induction l with
  | nil => intro i j hi _; simp at hi
  | cons a t ih =>
    intro i j hi hj
    cases i with
    | zero =>
      cases j with
      | zero => simp [swapList]
      | succ m =>
        have hm : m < t.length := by simpa using hj
        have : swapList (a :: t) 0 (m + 1) = t.getD m 0 :: t.set m a := by
          simp [swapList]
        rw [this]
        exact getD_cons_set_perm a t m hm
    | succ k =>
      cases j with
      | zero =>
        have hk : k < t.length := by simpa using hi
        have : swapList (a :: t) (k + 1) 0 = t.getD k 0 :: t.set k a := by
          simp [swapList]
        rw [this]
        exact getD_cons_set_perm a t k hk
      | succ m =>
        have hk : k < t.length := by simpa using hi
        have hm : m < t.length := by simpa using hj
        have : swapList (a :: t) (k + 1) (m + 1) = a :: swapList t k m := by
          simp [swapList]
        rw [this]
        exact List.Perm.cons a (ih k m hk hm)

lemma swapList_length (l : List Nat) (i j : Nat) :
    (swapList l i j).length = l.length := by
  simp [swapList]

lemma fisherYatesAux_perm (f : Nat → Nat) (hf : ∀ k, f k ≤ k) :
    ∀ (i : Nat) (l : List Nat), i < l.length →
      List.Perm (fisherYatesAux f i l) l := by
  intro i
  induction i with
  | zero => intro l _; exact List.Perm.refl l
  | succ i ih =>
    intro l h
    have hswap : List.Perm (swapList l (i + 1) (f (i + 1))) l :=
      swapList_perm l (i + 1) (f (i + 1)) h (lt_of_le_of_lt (hf (i + 1)) h)
    have hlen : i < (swapList l (i + 1) (f (i + 1))).length := by
      rw [swapList_length]; omega
    exact (ih (swapList l (i + 1) (f (i + 1))) hlen).trans hswap

lemma shuffleIndices_perm (n : Nat) (f : Nat → Nat) (hf : ∀ k, f k ≤ k) :
    List.Perm (shuffleIndices n f) (List.range n) := by
  cases n with
  | zero => simp [shuffleIndices, fisherYatesAux]
  | succ m =>
    have : m < (List.range (m + 1)).length := by simp
    simpa [shuffleIndices] using fisherYatesAux_perm f hf m (List.range (m + 1)) this

lemma shuffleIndices_length (n : Nat) (f : Nat → Nat) (hf : ∀ k, f k ≤ k) :
    (shuffleIndices n f).length = n := by
  simpa using (shuffleIndices_perm n f hf).length_eq

/-- C5: for every count `n ≥ 0` and every admissible sequence of random
draws, `shuffleIndices n` returns a permutation of exactly the indices
`[0..n)`: it has length `n`, contains no duplicates, and an index is a
member exactly when it is below `n`. -/
theorem shuffleIndices_is_permutation (n : Nat) (f : Nat → Nat) (hf : ∀ i, f i ≤ i) :
    (shuffleIndices n f).length = n ∧ (shuffleIndices n f).Nodup ∧
    (∀ k, k ∈ shuffleIndices n f ↔ k < n) ∧
    (shuffleIndices n f).Perm (List.range n) := by
  have hp := shuffleIndices_perm n f hf
  refine ⟨by simpa using hp.length_eq, hp.nodup_iff.mpr (List.nodup_range n), ?_, hp⟩
  intro k
  rw [hp.mem_iff, List.mem_range]

/-- Witness for C5 at `n = 5` with the draw oracle constantly `0`. -/
theorem shuffleIndices_is_permutation_witness :
    (∀ i : Nat, (fun _ : Nat => 0) i ≤ i) ∧
    ((shuffleIndices 5 (fun _ => 0)).length = 5 ∧ (shuffleIndices 5 (fun _ => 0)).Nodup ∧
     (∀ k, k ∈ shuffleIndices 5 (fun _ => 0) ↔ k < 5) ∧
     (shuffleIndices 5 (fun _ => 0)).Perm (List.range 5)) :=
  ⟨fun i => Nat.zero_le i,
   shuffleIndices_is_permutation 5 (fun _ => 0) (fun i => Nat.zero_le i)⟩

/-- Cursor invariant of the Ambient Controller: whenever the shuffled order
is non-empty, `shufflePos` indexes into it. -/
def cursorInRange (s : AmbientState) : Prop :=
  s.shuffledOrder ≠ [] → s.shufflePos < s.shuffledOrder.length

/-- C10: `next`, `prev` and `onPlaylistLoaded` all preserve the cursor
bound `shufflePos < shuffledOrder.length` (for non-empty orders), so
`shuffledOrder[shufflePos]` is always an in-range access. -/
theorem ambient_cursor_stays_in_range (s : AmbientState) (f : Nat → Nat) (count : Nat)
    (hs : cursorInRange s) :
    cursorInRange (AmbientPlayer.next s f) ∧
    cursorInRange (AmbientPlayer.prev s) ∧
    cursorInRange (AmbientPlayer.onPlaylistLoaded s count f) := by
  refine ⟨?_, ?_, ?_⟩
  · unfold AmbientPlayer.next
    by_cases hg : !s.ready || s.trackCount = 0
    · simpa [hg] using hs
    · simp only [hg, if_false]
      rcases eq_or_ne s.shuffledOrder [] with hord | hord
      · have hlen : s.shuffledOrder.length = 0 := by simp [hord]
        intro h
        simp only [cursorInRange, hlen, Nat.mod_zero] at *
        simp_all
      · have hlen : 0 < s.shuffledOrder.length := List.length_pos.mpr hord
        have hmod : (s.shufflePos + 1) % s.shuffledOrder.length < s.shuffledOrder.length :=
          Nat.mod_lt _ hlen
        by_cases hz : (s.shufflePos + 1) % s.shuffledOrder.length = 0
        · intro hne
          simp only [hz, if_pos] at *
          simp_all [List.length_pos]
        · intro hne
          simp_all [cursorInRange]
  · unfold AmbientPlayer.prev
    by_cases hg : !s.ready || s.trackCount = 0
    · simpa [hg] using hs
    · simp only [hg, if_false]
      rcases eq_or_ne s.shuffledOrder [] with hord | hord
      · intro h; simp_all
      · have hlen : 0 < s.shuffledOrder.length := List.length_pos.mpr hord
        intro hne
        simpa using Nat.mod_lt (s.shufflePos + s.shuffledOrder.length - 1) hlen
  · unfold AmbientPlayer.onPlaylistLoaded
    by_cases hc : count > 0
    · intro hne
      simp only [hc, if_pos] at hne ⊢
      simpa using List.length_pos.mpr (by simpa using hne)
    · intro hne
      simp only [hc, if_neg, if_false] at hne ⊢
      exact hs (by simpa using hne)

lemma map_getD_range : ∀ (l : List Nat),
    (List.range l.length).map (fun i => l.getD i 0) = l := by
  intro l
  induction l with
  | nil => simp
  | cons x xs ih =>
    simp only [List.length_cons, List.range_succ_eq_map, List.map_cons, List.map_map]
    refine congrArg₂ List.cons (by simp) ?_
    have hfun : ((fun i => (x :: xs).getD i 0) ∘ Nat.succ) = (fun i => xs.getD i 0) := by
      funext i
      simp [List.getD]
    rw [hfun]
    exact ih

lemma runNext_before_wrap (s : AmbientState) (fs : Nat → Nat → Nat) (p : List Nat) (n : Nat)
    (hn : 0 < n) (hlen : p.length = n) (hord : s.shuffledOrder = p) (hpos : s.shufflePos = 0)
    (hcnt : s.trackCount = n) (hrdy : s.ready = true) (hcur : s.currentTrack = p.getD 0 0) :
    ∀ k, k < n →
      (AmbientPlayer.runNext s fs k).shuffledOrder = p ∧
      (AmbientPlayer.runNext s fs k).shufflePos = k ∧
      (AmbientPlayer.runNext s fs k).currentTrack = p.getD k 0 ∧
      (AmbientPlayer.runNext s fs k).trackCount = n ∧
      (AmbientPlayer.runNext s fs k).ready = true := by
  intro k
  induction k with
  | zero => intro _; exact ⟨hord, hpos, hcur, hcnt, hrdy⟩
  | succ k ih =>
    intro hk
    obtain ⟨ho, hp', hc, ht, hr⟩ := ih (Nat.lt_of_succ_lt hk)
    have hstep : AmbientPlayer.runNext s fs (k + 1) =
        AmbientPlayer.next (AmbientPlayer.runNext s fs k) (fs k) := rfl
    have hlen' : (AmbientPlayer.runNext s fs k).shuffledOrder.length = n := by
      rw [ho, hlen]
    have hmod : (k + 1) % n = k + 1 := Nat.mod_eq_of_lt hk
    have hnz : ¬ (k + 1) % n = 0 := by omega
    rw [hstep]
    unfold AmbientPlayer.next
    simp only [hr, ht, hlen', hp', hmod, hnz, if_false, Bool.not_true, Bool.false_or]
    have hng : ¬ n = 0 := by omega
    simp [hng, ho]

/-- C3: starting from a freshly loaded playlist of `n > 0` tracks (cursor
at position `0` of a shuffled order `p`), the tracks visited after
`0, 1, ..., n-1` calls to `next` are exactly `p` — every index in `[0..n)`
once, with no repeat possible before the `n`-th call — the order is never
regenerated before the cursor wraps, and the `n`-th call wraps the cursor
to `0` and regenerates the order as a fresh `shuffleIndices` permutation. -/
theorem ambient_next_exhausts_before_repeat (n : Nat) (p : List Nat) (fs : Nat → Nat → Nat)
    (s : AmbientState) (hn : 0 < n) (hp : p.Perm (List.range n))
    (hord : s.shuffledOrder = p) (hpos : s.shufflePos = 0) (hcnt : s.trackCount = n)
    (hrdy : s.ready = true) (hcur : s.currentTrack = p.getD 0 0)
    (hf : ∀ i, fs (n - 1) i ≤ i) :
    AmbientPlayer.visitedTracks s fs (n - 1) = p ∧
    (AmbientPlayer.visitedTracks s fs (n - 1)).Perm (List.range n) ∧
    (∀ k, k < n → (AmbientPlayer.runNext s fs k).shuffledOrder = p) ∧
    (AmbientPlayer.runNext s fs n).shufflePos = 0 ∧
    (AmbientPlayer.runNext s fs n).shuffledOrder = shuffleIndices n (fs (n - 1)) ∧
    ((AmbientPlayer.runNext s fs n).shuffledOrder).Perm (List.range n) := by
  have hlen : p.length = n := by simpa using hp.length_eq
  have hstay := runNext_before_wrap s fs p n hn hlen hord hpos hcnt hrdy hcur
  have hvisit : AmbientPlayer.visitedTracks s fs (n - 1) = p := by
    unfold AmbientPlayer.visitedTracks
    have hrange : n - 1 + 1 = n := by omega
    rw [hrange]
    have : ∀ i ∈ List.range n, (AmbientPlayer.runNext s fs i).currentTrack = p.getD i 0 := by
      intro i hi
      exact (hstay i (List.mem_range.mp hi)).2.2.1
    calc (List.range n).map (fun i => (AmbientPlayer.runNext s fs i).currentTrack)
        = (List.range n).map (fun i => p.getD i 0) := List.map_congr_left this
      _ = p := by rw [← hlen]; exact map_getD_range p
  have hpred : n - 1 < n := by omega
  obtain ⟨ho, hp', hc, ht, hr⟩ := hstay (n - 1) hpred
  have hstep : AmbientPlayer.runNext s fs n =
      AmbientPlayer.next (AmbientPlayer.runNext s fs (n - 1)) (fs (n - 1)) := by
    have : n = (n - 1) + 1 := by omega
    rw [this]
    rfl
  have hlen' : (AmbientPlayer.runNext s fs (n - 1)).shuffledOrder.length = n := by
    rw [ho, hlen]
  have hwrap : (AmbientPlayer.runNext s fs n).shufflePos = 0 ∧
      (AmbientPlayer.runNext s fs n).shuffledOrder = shuffleIndices n (fs (n - 1)) := by
    rw [hstep]
    unfold AmbientPlayer.next
    have hmod : (n - 1 + 1) % n = 0 := by
      have : n - 1 + 1 = n := by omega
      rw [this]; exact Nat.mod_self n
    have hng : ¬ n = 0 := by omega
    simp [hr, ht, hng, hlen', hp', hmod]
  refine ⟨hvisit, by rw [hvisit]; exact hp, fun k hk => (hstay k hk).1, hwrap.1, hwrap.2, ?_⟩
  rw [hwrap.2]
  exact shuffleIndices_perm n (fs (n - 1)) hf

/-- Witness for C3 at `n = 3`, order `[2, 0, 1]`, constant draw oracle. -/
theorem ambient_next_exhausts_before_repeat_witness :
    0 < 3 ∧ List.Perm [2, 0, 1] (List.range 3) ∧
    (AmbientPlayer.visitedTracks ⟨[2, 0, 1], 0, 3, true, false, 2⟩ (fun _ _ => 0) 2 = [2, 0, 1] ∧
     (AmbientPlayer.visitedTracks ⟨[2, 0, 1], 0, 3, true, false, 2⟩ (fun _ _ => 0) 2).Perm
       (List.range 3) ∧
     (∀ k, k < 3 →
       (AmbientPlayer.runNext ⟨[2, 0, 1], 0, 3, true, false, 2⟩ (fun _ _ => 0) k).shuffledOrder
         = [2, 0, 1]) ∧
     (AmbientPlayer.runNext ⟨[2, 0, 1], 0, 3, true, false, 2⟩ (fun _ _ => 0) 3).shufflePos = 0 ∧
     (AmbientPlayer.runNext ⟨[2, 0, 1], 0, 3, true, false, 2⟩ (fun _ _ => 0) 3).shuffledOrder
       = shuffleIndices 3 (fun _ => 0) ∧
     ((AmbientPlayer.runNext ⟨[2, 0, 1], 0, 3, true, false, 2⟩
        (fun _ _ => 0) 3).shuffledOrder).Perm (List.range 3)) :=
  ⟨by decide, by decide,
   ambient_next_exhausts_before_repeat 3 [2, 0, 1] (fun _ _ => 0)
     ⟨[2, 0, 1], 0, 3, true, false, 2⟩ (by decide) (by decide)
     rfl rfl rfl rfl (by decide) (fun i => Nat.zero_le i)⟩

/-- Witness for C10 at a concrete state with a two-element order. -/
theorem ambient_cursor_stays_in_range_witness :
    cursorInRange ⟨[1, 0], 1, 2, true, false, 0⟩ ∧
    (cursorInRange (AmbientPlayer.next ⟨[1, 0], 1, 2, true, false, 0⟩ (fun _ => 0)) ∧
     cursorInRange (AmbientPlayer.prev ⟨[1, 0], 1, 2, true, false, 0⟩) ∧
     cursorInRange (AmbientPlayer.onPlaylistLoaded ⟨[1, 0], 1, 2, true, false, 0⟩ 3 (fun _ => 0))) :=
  ⟨fun _ => by decide,
   ambient_cursor_stays_in_range ⟨[1, 0], 1, 2, true, false, 0⟩ (fun _ => 0) 3
     (fun _ => by decide)⟩
